import Mathlib

/-!
Shallow embedding of the Jetflare request-dispatch layer (`src/index.ts`):
the cache manager (`CacheManager`), the WebSocket manager's state maps
(`WebSocketManager`), URL and cache-key construction (`buildUrl`,
`buildCacheKey`, `flattenQuery`), multipart body detection
(`doesBodyHasFile`), the timeout fallback of `makeRequest`, and the per-call
HTTP dispatch flow of `createHttpFunction`.

JavaScript string-keyed `Map`s and plain records are modelled as
insertion-ordered association lists, JS numbers that the code only ever
treats integrally as `Nat`/`Int`, and `Date.now()` as an explicit `now`
parameter. Reference identity of heap objects is modelled separately (for
the deep-copy claims) by values whose object nodes carry an allocation id.
-/

/-- JS `Map.prototype.get` / first-match lookup in an insertion-ordered map. -/
def lookupA {α : Type} : List (String × α) → String → Option α
  | [], _ => none
  | (k', v) :: rest, k => if k' = k then some v else lookupA rest k

/-- JS `Map.prototype.set` and record assignment: an existing key keeps its
position and receives the new value; a fresh key is appended at the end
(JS maps and records enumerate string keys in insertion order). -/
def mapSet {α : Type} (s : List (String × α)) (k : String) (v : α) :
    List (String × α) :=
  if s.any (fun kv => kv.1 == k) then
    s.map (fun kv => if kv.1 = k then (k, v) else kv)
  else s ++ [(k, v)]

/-- JS `Map.prototype.delete` on a string-keyed map. -/
def removeA {α : Type} (s : List (String × α)) (k : String) : List (String × α) :=
  s.filter (fun kv => kv.1 ≠ k)

/-- A JSON-like JavaScript value, as flows through decoded response bodies
and the cache. At this level of abstraction a value carries no object
identity, so `structuredClone` is the identity on it; object identity is
modelled separately by `SVal` below for the aliasing claims. -/
inductive JVal : Type
  | jnull
  | jbool (b : Bool)
  | jnum (n : Int)
  | jstr (s : String)
  | jarr (elems : List JVal)
  | jobj (fields : List (String × JVal))

/-- JavaScript truthiness of a `JVal` (the `if (cached)` test in
`createHttpFunction`). -/
def jvTruthy : JVal → Bool
  | .jnull => false
  | .jbool b => b
  | .jnum n => n != 0
  | .jstr s => s != ""
  | .jarr _ => true
  | .jobj _ => true

/-- One entry of `CacheManager`'s map: `{ data, expires: Date.now() + ttl }`. -/
structure CEntry : Type where
  data : JVal
  expires : Nat

/-- The `CacheManager`'s private map, insertion-ordered as a JS `Map` is. -/
abbrev CMState : Type := List (String × CEntry)

/-- The eviction step of `CacheManager.set`: the first key in insertion
order is fetched (`this.cache.keys().next().value`) and — only when that
key is truthy, i.e. nonempty (`if (oldestKey)`) — deleted. -/
def evictOldest {α : Type} (s : List (String × α)) : List (String × α) :=
  match s with
  | [] => s
  | (k0, _) :: rest => if k0 = "" then s else rest

/-- `CacheManager.set`: when the map has reached `maxSize` (100), the
oldest entry is (conditionally) evicted, then the (structurally cloned)
data is stored under `key` with absolute expiry `now + ttl`. -/
def cmSet (s : CMState) (k : String) (d : JVal) (ttl now : Nat) : CMState :=
  mapSet (if s.length ≥ 100 then evictOldest s else s) k ⟨d, now + ttl⟩

/-- `CacheManager.get`: an absent key reads as `null`; an expired entry is
lazily deleted and reads as `null`; otherwise a clone of the stored data is
returned. The map after the read is returned too, since the expiry check
mutates it. -/
def cmGet (s : CMState) (k : String) (now : Nat) : Option JVal × CMState :=
  match lookupA s k with
  | none => (none, s)
  | some e => if now > e.expires then (none, removeA s k) else (some e.data, s)

/-- Whole-string wildcard matching, `*` standing for any sequence of
characters. This is the matching semantics of the regular expression
`p.replace(/\*/g, ".*")` that `CacheManager.invalidate` builds, for patterns
whose characters other than `*` are regex-literal (true of every pattern in
the claims). -/
def globMatch : List Char → List Char → Bool
  | [], k => k.isEmpty
  | c :: ps, k =>
    if c = '*' then k.tails.any (fun t => globMatch ps t)
    else
      match k with
      | [] => false
      | d :: ks => c == d && globMatch ps ks

/-- Character-list version of "starts with": `leadMatch p k` holds when `p`
is an initial run of `k`. Used to model `String.prototype.includes` and the
unanchored regex search. -/
def leadMatch : List Char → List Char → Bool
  | [], _ => true
  | _ :: _, [] => false
  | c :: ps, d :: ks => c == d && leadMatch ps ks

/-- JS `key.includes(p)`: `p` occurs contiguously somewhere inside `key`. -/
def containsSub (key pat : List Char) : Bool :=
  key.tails.any (fun t => leadMatch pat t)

/-- JS `key.match(regex)` truthiness for the regex built from a wildcard
pattern: an unanchored search, succeeding when some contiguous piece of the
key — starting anywhere, of any length — matches the whole pattern. -/
def rxSearch (pat key : List Char) : Bool :=
  key.tails.any (fun t => t.inits.any (fun m => globMatch pat m))

/-- The per-key, per-pattern test of `CacheManager.invalidate`:
`key.includes(p) || key.match(new RegExp(p.replace(/\*/g, ".*")))`. -/
def matchesPattern (p k : String) : Bool :=
  containsSub k.toList p.toList || rxSearch p.toList k.toList

/-- `CacheManager.invalidate(pattern | patterns)`: every stored key passing
`matchesPattern` for some pattern is deleted; the rest are kept in order. -/
def cmInvalidate (pats : List String) (s : CMState) : CMState :=
  s.filter (fun kv => !(pats.any (fun p => matchesPattern p kv.1)))

/-- Spec-side reading of the invalidation test, stated for comparison with
the code's `matchesPattern`: the key contains the pattern as a literal
substring, or the key as a whole matches the pattern as a wildcard
expression where `*` expands to any sequence. -/
def specInvalidateMatches (p k : String) : Bool :=
  containsSub k.toList p.toList || globMatch p.toList k.toList

/-- The two state maps of `WebSocketManager`: `connections` (one live socket
per url) and `eventHandlers` (sets of handler references keyed by the string
`url:event`). Handlers are modelled by numeric references. -/
structure WSState : Type where
  connections : List String
  eventHandlers : List (String × List Nat)

/-- A fresh `WebSocketManager`. -/
def wsInit : WSState := ⟨[], []⟩

/-- `WebSocketManager.connect`: a no-op when a connection for `url` already
exists; otherwise the new socket is recorded under `url`. -/
def wsConnect (s : WSState) (url : String) : WSState :=
  if s.connections.contains url then s
  else { s with connections := s.connections ++ [url] }

/-- `WebSocketManager.on`: the handler is added to the set stored under the
key `` `${url}:${event}` ``; a missing set is created first. -/
def wsOn (s : WSState) (url event : String) (h : Nat) : WSState :=
  let key := url ++ ":" ++ event
  let hs := (lookupA s.eventHandlers key).getD []
  let hs' := if hs.contains h then hs else hs ++ [h]
  { s with eventHandlers := mapSet s.eventHandlers key hs' }

/-- The `ws.onclose` handler installed by `WebSocketManager.connect`:
`this.connections.delete(url); this.eventHandlers.delete(url)` — note that
the handler map's delete uses the bare `url` as the key, while its entries
are stored under `` `${url}:${event}` ``. -/
def wsHandleClose (s : WSState) (url : String) : WSState :=
  { connections := s.connections.filter (fun u => u ≠ url),
    eventHandlers := removeA s.eventHandlers url }

/-- A value of a request-body field: a binary `File`, an array of values, or
any other (non-file, non-array) value. -/
inductive BVal : Type
  | file (name : String)
  | arr (elems : List BVal)
  | other (v : JVal)

/-- The `value instanceof File` test. An array is not itself a `File`, even
when all of its elements are. -/
def isFile : BVal → Bool
  | .file _ => true
  | _ => false

/-- The multipart detection of `makeRequest`:
`Object.values(payload.body || {}).some((value) => value instanceof File)` —
only direct field values are tested. -/
def doesBodyHasFile (body : Option (List (String × BVal))) : Bool :=
  (body.getD []).any (fun kv => isFile kv.2)

/-- A value of a `query` object: `null`/`undefined`, a primitive carried by
its `String(value)` rendering, an array, or a nested object. -/
inductive QVal : Type
  | null
  | prim (s : String)
  | arr (elems : List QVal)
  | obj (fields : List (String × QVal))

mutual
/-- JS `String(value)` on a query value: `"null"` for null, the carried
rendering for primitives, comma-joined elements for arrays (with null
elements rendering as the empty string inside a join), and
`"[object Object]"` for plain objects. -/
def strOfQVal : QVal → String
  | .null => "null"
  | .prim s => s
  | .arr xs => strOfQValList xs
  | .obj _ => "[object Object]"

/-- Comma-join of array elements as `Array.prototype.toString` does. -/
def strOfQValList : List QVal → String
  | [] => ""
  | [x] => match x with
    | .null => ""
    | x => strOfQVal x
  | x :: rest =>
    (match x with
     | .null => ""
     | x => strOfQVal x) ++ "," ++ strOfQValList rest
end

/-- One hexadecimal digit, uppercase, as percent-encoding writes it. -/
def hexDigit (n : Nat) : Char :=
  if n < 10 then Char.ofNat (48 + n) else Char.ofNat (55 + n)

/-- A percent-encoded byte, `%XX`. -/
def percentByte (b : Nat) : String :=
  "%" ++ String.mk [hexDigit (b / 16), hexDigit (b % 16)]

/-- The UTF-8 bytes of a code point (for percent-encoding). -/
def utf8Bytes (n : Nat) : List Nat :=
  if n < 128 then [n]
  else if n < 2048 then [192 + n / 64, 128 + n % 64]
  else if n < 65536 then [224 + n / 4096, 128 + n / 64 % 64, 128 + n % 64]
  else [240 + n / 262144, 128 + n / 4096 % 64, 128 + n / 64 % 64, 128 + n % 64]

/-- One character under a keep-predicate: kept literally, or percent-encoded
byte by byte. -/
def encChar (keep : Char → Bool) (c : Char) : String :=
  if keep c then String.mk [c] else String.join ((utf8Bytes c.toNat).map percentByte)

/-- The characters `encodeURIComponent` leaves unescaped. -/
def uriUnreserved (c : Char) : Bool :=
  c.isAlphanum || c ∈ ['-', '_', '.', '!', '~', '*', '\'', '(', ')']

/-- JS `encodeURIComponent`, as `buildUrl` applies it to path parameters. -/
def encodeURIComponent (s : String) : String :=
  String.join (s.toList.map (encChar uriUnreserved))

/-- The characters the `application/x-www-form-urlencoded` serializer of
`URLSearchParams` leaves unescaped (space becomes `+` separately). -/
def formSafe (c : Char) : Bool :=
  c.isAlphanum || c ∈ ['*', '-', '.', '_']

/-- One string as `URLSearchParams` serializes it. -/
def formEncode (s : String) : String :=
  String.join (s.toList.map (fun c => if c = ' ' then "+" else encChar formSafe c))

/-- `URLSearchParams(pairs).toString()`: `k=v` pairs joined by `&`, each side
form-encoded, in the order given. -/
def serializeQuery (ps : List (String × String)) : String :=
  String.intercalate "&" (ps.map (fun p => formEncode p.1 ++ "=" ++ formEncode p.2))

/-- JS `String.prototype.replace` with a string search argument: only the
first occurrence is replaced (charlist worker). -/
def replaceFirstL (pat rep : List Char) : List Char → List Char
  | [] => if leadMatch pat [] then rep else []
  | c :: rest =>
    if leadMatch pat (c :: rest) then rep ++ (c :: rest).drop pat.length
    else c :: replaceFirstL pat rep rest

/-- JS `s.replace(pat, rep)` for a string `pat`: first occurrence only. -/
def replaceFirst (s pat rep : String) : String :=
  String.mk (replaceFirstL pat.toList rep.toList s.toList)

/-- The key under which `flattenQuery` records a value:
`prefix ? `${prefix}[${key}]` : key`. -/
def flatKey (pfx key : String) : String :=
  if pfx = "" then key else pfx ++ "[" ++ key ++ "]"

mutual
/-- The leaf pairs `flattenQuery` produces for one value, in enumeration
order: nested objects and arrays (both are
`typeof value === "object" && value !== null` in JS, a `for...in` over an
array enumerating its indices) recurse with the bracketed key; anything
else yields `(prefixedKey, String(value))`. -/
def flatPairs (pk : String) : QVal → List (String × String)
  | .obj fs => flatPairsFields pk fs
  | .arr xs => flatPairsElems pk 0 xs
  | v => [(pk, strOfQVal v)]

/-- Leaf pairs over the fields of an object, in enumeration order. -/
def flatPairsFields (pfx : String) : List (String × QVal) → List (String × String)
  | [] => []
  | (k, v) :: rest => flatPairs (flatKey pfx k) v ++ flatPairsFields pfx rest

/-- Leaf pairs over the elements of an array, whose `for...in` keys are the
decimal indices. -/
def flatPairsElems (pfx : String) (i : Nat) : List QVal → List (String × String)
  | [] => []
  | v :: rest => flatPairs (flatKey pfx (toString i)) v ++ flatPairsElems pfx (i + 1) rest
end

/-- `JetflareCommon.flattenQuery(obj)` with the default empty prefix: the
flattened record of a query object. The source threads a result record
through `result[prefixedKey] = ...` and `Object.assign`; both assign leaf
pairs into the record in enumeration order with overwrite-in-place
semantics, which is `mapSet` folded over the leaf pairs (for the key sets
arising here, where no two leaves share a key, this is just the pair list
itself). -/
def flattenQuery (q : List (String × QVal)) : List (String × String) :=
  (flatPairsFields "" q).foldl (fun acc kv => mapSet acc kv.1 kv.2) []

/-- The per-call `cache` directive of `ApiFunctionPayload`:
absent, a boolean, or a `{ ttl?, key? }` object. -/
inductive CacheDir : Type
  | undef
  | flag (b : Bool)
  | config (ttl : Option Nat) (key : Option String)

/-- Truthiness of `payload.cache !== false ? payload.cache : false` in
`createHttpFunction`: explicit `false` and absence are falsy, `true` and any
config object (even empty) are truthy. -/
def cacheTruthy : CacheDir → Bool
  | .flag true => true
  | .config _ _ => true
  | _ => false

/-- The TTL stored on a cache hit write:
`(cacheConfig as { ttl?: number }).ttl || 300000` — an absent, non-object or
zero (falsy) ttl falls back to 300000 ms. -/
def ttlOf : CacheDir → Nat
  | .config (some t) _ => if t ≠ 0 then t else 300000
  | _ => 300000

/-- The base of the cache key: `cacheConfig.key || routeDef.path` — a key
override that is absent, not an object's field, or empty (falsy) falls back
to the route path. -/
def cacheKeyBase : CacheDir → String → String
  | .config _ (some s), path => if s ≠ "" then s else path
  | _, path => path

/-- A route definition as `createHttpFunction` consumes it. -/
structure RouteDef : Type where
  path : String
  method : String
  headers : List (String × String)
  invalidates : Option (List String)

/-- A per-call payload, restricted to the fields the dispatch flow reads.
`params` values are `none` for `null`/`undefined` and otherwise carry their
`String(value)` rendering; `timeout` is `none` when absent. -/
structure Payload : Type where
  body : Option (List (String × BVal)) := none
  query : Option (List (String × QVal)) := none
  params : Option (List (String × Option String)) := none
  cache : CacheDir := .undef
  timeout : Option Nat := none

/-- A JS `Error`, carried by its message. -/
inductive JsErr : Type
  | err (msg : String)

/-- The parameter-substitution loop of `buildUrl`, over the supplied entries
in order: the first `null`/`undefined` value throws, earlier entries having
already been substituted (`:name`, first occurrence, value URI-encoded). -/
def substParams (ps : List (String × Option String)) (path : String) :
    Except JsErr String :=
  ps.foldl (fun acc pv =>
    match acc with
    | .error e => .error e
    | .ok p =>
      match pv.2 with
      | none => .error (.err ("Missing required parameter: " ++ pv.1))
      | some v => .ok (replaceFirst p (":" ++ pv.1) (encodeURIComponent v)))
    (.ok path)

/-- `JetflareCommon.buildUrl`: substitutes each supplied path parameter into
the path, throwing `Missing required parameter` at the first
`null`/`undefined` value — note that only supplied entries are checked,
placeholders with no corresponding entry are left in the path — then
appends the query entries (null skipped, arrays appended once per element).
`new URL(...)` is modelled as the identity on the already-absolute result. -/
def buildUrl (origin : String) (routeDef : RouteDef) (payload : Payload) :
    Except JsErr String :=
  let pstep : Except JsErr String :=
    match payload.params with
    | none => .ok routeDef.path
    | some ps => substParams ps routeDef.path
  match pstep with
  | .error e => .error e
  | .ok actualPath =>
    let qpairs : List (String × String) :=
      match payload.query with
      | none => []
      | some q =>
        q.foldl (fun acc kv =>
          match kv.2 with
          | .null => acc
          | .arr xs => acc ++ xs.map (fun item => (kv.1, strOfQVal item))
          | v => acc ++ [(kv.1, strOfQVal v)]) []
    let qs := serializeQuery qpairs
    .ok (origin ++ actualPath ++ (if qs = "" then "" else "?" ++ qs))

/-- `JetflareCommon.buildCacheKey`: the override key or route path, each
supplied param substituted for `:name` (no null check here — `String(null)`
is substituted), then `?` and the `URLSearchParams`-serialized flattened
query when nonempty. -/
def buildCacheKey (routeDef : RouteDef) (payload : Payload) (cfg : CacheDir) :
    String :=
  let key := cacheKeyBase cfg routeDef.path
  let key :=
    match payload.params with
    | none => key
    | some ps =>
      ps.foldl (fun k pv =>
        replaceFirst k (":" ++ pv.1) (match pv.2 with | none => "null" | some v => v)) key
  match payload.query with
  | none => key
  | some q =>
    let qs := serializeQuery (flattenQuery q)
    if qs ≠ "" then key ++ "?" ++ qs else key

/-- JS `String.prototype.toLowerCase`, as `createHttpFunction` applies it to
the route method (character-wise lowering suffices for method strings). -/
def strToLower (s : String) : String := String.mk (s.toList.map Char.toLower)

/-- A raw transport response, carried with its decoded body: `Resp.body`
stands for the result of `response.json()` (falling back to text, also a
`JVal`). -/
structure Resp : Type where
  status : Nat
  body : JVal

/-- `Response.ok`: status in the 200–299 range. -/
def respOk (r : Resp) : Bool :=
  decide (200 ≤ r.status) && decide (r.status < 300)

/-- The `JetResponse` wrapper as the claims see it: status, decoded body,
and the two cache-provenance flags. -/
structure JetResp : Type where
  status : Nat
  data : JVal
  cached : Bool
  fromCache : Bool

/-- What the network does for one call, abstracting `fetch`/XHR: a response,
an elapsed timeout, or a network failure. -/
inductive TransportResult : Type
  | ok (r : Resp)
  | timesOut
  | netErr (e : JsErr)

/-- The deadline picked by `makeRequest`:
`payload.timeout || this.defaultTimeout` — `0` (and any other falsy timeout)
silently falls back to the client default. -/
def effectiveTimeout (payloadTimeout : Option Nat) (defaultTimeout : Nat) : Nat :=
  match payloadTimeout with
  | some t => if t ≠ 0 then t else defaultTimeout
  | none => defaultTimeout

/-- The message of the rejection raised when the deadline elapses:
`` `Request timeout after ${timeout}ms` ``. -/
def timeoutMsg (t : Nat) : String :=
  "Request timeout after " ++ toString t ++ "ms"

/-- `JetflareCommon.makeRequest`, outcome and whether the network transport
was actually invoked. The URL is built first — a missing-parameter throw
happens before any network activity. A body holding a direct `File` value
takes the XHR upload path (whose `ontimeout` message names
`this.defaultTimeout`); otherwise `fetch` runs under an abort deadline of
`effectiveTimeout`, and an abort error is rethrown as the timeout message
naming that deadline. -/
def makeRequest (origin : String) (defaultTimeout : Nat) (routeDef : RouteDef)
    (payload : Payload) (outcome : TransportResult) : Except JsErr Resp × Bool :=
  match buildUrl origin routeDef payload with
  | .error e => (.error e, false)
  | .ok _ =>
    if doesBodyHasFile payload.body then
      match outcome with
      | .ok r => (.ok r, true)
      | .timesOut => (.error (.err (timeoutMsg defaultTimeout)), true)
      | .netErr e => (.error e, true)
    else
      let t := effectiveTimeout payload.timeout defaultTimeout
      match outcome with
      | .ok r => (.ok r, true)
      | .timesOut => (.error (.err (timeoutMsg t)), true)
      | .netErr e => (.error e, true)

/-- The error-interceptor chain of the dispatch `catch` block: each
interceptor receives the error returned by the previous one, in
registration order, and the final error is rethrown. -/
def applyErrI (errI : List (JsErr → JsErr)) (e : JsErr) : JsErr :=
  errI.foldl (fun a f => f a) e

/-- What one invocation of a route's HTTP callable produces: the settled
promise, the cache map afterwards, and whether the network transport ran. -/
structure DispatchResult : Type where
  result : Except JsErr JetResp
  cacheAfter : CMState
  networkInvoked : Bool

/-- `JetflareCommon.createHttpFunction`'s per-call flow, parameterized over
the cache's read and write operations (`Except`-valued: in JS either may
throw, e.g. out of `structuredClone`, and any such throw lands in the one
`catch` block of the flow). Steps, as in the source: fold request
interceptors over the payload to get `config`; when the cache directive is
truthy and the method is a safe read, compute the cache key from the
ORIGINAL payload and read the cache — a truthy hit returns a synthesized
200/`cached`/`fromCache` response at once (no transport, and no response
interceptors); otherwise run `makeRequest` on `config`, wrap the response,
fold the response interceptors, write the cache on a successful cacheable
read, run route-declared invalidation on success, and return. Any throw is
folded through the error interceptors and rethrown. -/
def dispatch (origin : String) (defaultTimeout : Nat)
    (reqI : List (Payload → Payload)) (respI : List (JetResp → JetResp))
    (errI : List (JsErr → JsErr))
    (cGet : CMState → String → Nat → Except JsErr (Option JVal × CMState))
    (cSet : CMState → String → JVal → Nat → Nat → Except JsErr CMState)
    (routeDef : RouteDef) (payload : Payload) (st : CMState) (now : Nat)
    (outcome : TransportResult) : DispatchResult :=
  let config := reqI.foldl (fun c f => f c) payload
  let ct := cacheTruthy payload.cache
  let isGet := strToLower routeDef.method == "get"
  let readStep : Except JsErr (Option JVal × CMState) :=
    if ct && isGet then cGet st (buildCacheKey routeDef payload payload.cache) now
    else .ok (none, st)
  match readStep with
  | .error e => ⟨.error (applyErrI errI e), st, false⟩
  | .ok (hit, st1) =>
    let hitData : Option JVal :=
      match hit with
      | some d => if jvTruthy d then some d else none
      | none => none
    match hitData with
    | some d => ⟨.ok ⟨200, d, true, true⟩, st1, false⟩
    | none =>
      match makeRequest origin defaultTimeout routeDef config outcome with
      | (.error e, nw) => ⟨.error (applyErrI errI e), st1, nw⟩
      | (.ok resp, _) =>
        let jr := respI.foldl (fun r f => f r) ⟨resp.status, resp.body, ct, false⟩
        let setStep : Except JsErr CMState :=
          if ct && respOk resp && isGet then
            cSet st1 (buildCacheKey routeDef payload payload.cache) resp.body
              (ttlOf payload.cache) now
          else .ok st1
        match setStep with
        | .error e => ⟨.error (applyErrI errI e), st1, true⟩
        | .ok st2 =>
          let st3 :=
            match routeDef.invalidates with
            | some pats => if respOk resp then cmInvalidate pats st2 else st2
            | none => st2
          ⟨.ok jr, st3, true⟩

/-- The real `CacheManager.get`, which never throws, as a dispatch cache
reader. -/
def cmGetE (s : CMState) (k : String) (now : Nat) :
    Except JsErr (Option JVal × CMState) :=
  .ok (cmGet s k now)

/-- The real `CacheManager.set`, which never throws on `JVal` data, as a
dispatch cache writer. -/
def cmSetE (s : CMState) (k : String) (d : JVal) (ttl now : Nat) :
    Except JsErr CMState :=
  .ok (cmSet s k d ttl now)

/-- One HTTP route call against the real cache manager. -/
def dispatchHttp (origin : String) (defaultTimeout : Nat)
    (reqI : List (Payload → Payload)) (respI : List (JetResp → JetResp))
    (errI : List (JsErr → JsErr)) (routeDef : RouteDef) (payload : Payload)
    (st : CMState) (now : Nat) (outcome : TransportResult) : DispatchResult :=
  dispatch origin defaultTimeout reqI respI errI cmGetE cmSetE routeDef payload
    st now outcome

/-- A structured-cloneable JS value with object identity: every object node
carries the allocation id of the heap object realizing it. Primitives have
no identity. -/
inductive SVal : Type
  | prim (s : String)
  | obj (id : Nat) (fields : List (String × SVal))

/-- The shape of an `SVal` with identities erased: what deep equality
compares. -/
inductive PVal : Type
  | prim (s : String)
  | obj (fields : List (String × PVal))

mutual
/-- Identity erasure: the pure shape of a value. -/
def eraseIds : SVal → PVal
  | .prim s => .prim s
  | .obj _ fs => .obj (eraseFields fs)

/-- Identity erasure over an object's fields. -/
def eraseFields : List (String × SVal) → List (String × PVal)
  | [] => []
  | (k, v) :: rest => (k, eraseIds v) :: eraseFields rest
end

mutual
/-- `structuredClone`: a deep copy whose every object node is a fresh heap
allocation. The allocator is modelled as a counter `c` of the next free id;
the clone of a value and the counter afterwards are returned. -/
def sclone (c : Nat) : SVal → SVal × Nat
  | .prim s => (.prim s, c)
  | .obj _ fs =>
    let r := scloneFields (c + 1) fs
    (.obj c r.1, r.2)

/-- `structuredClone` over an object's fields, threading the allocator. -/
def scloneFields (c : Nat) : List (String × SVal) → List (String × SVal) × Nat
  | [] => ([], c)
  | (k, v) :: rest =>
    let rv := sclone c v
    let rr := scloneFields rv.2 rest
    ((k, rv.1) :: rr.1, rr.2)
end

mutual
/-- The largest allocation id occurring in a value (0 when none does): a
live JS heap's next free address exceeds it. -/
def maxId : SVal → Nat
  | .prim _ => 0
  | .obj i fs => max i (maxIdFields fs)

/-- Largest allocation id over an object's fields. -/
def maxIdFields : List (String × SVal) → Nat
  | [] => 0
  | (_, v) :: rest => max (maxId v) (maxIdFields rest)
end

/-- The identity of a value's root, when it is an object. -/
def rootId : SVal → Option Nat
  | .prim _ => none
  | .obj i _ => some i

/-- Reference identity (JS `===` on objects): both values are object-rooted
and their roots are the same heap object. Primitives are never
reference-identical to anything. -/
def refIdentical (a b : SVal) : Prop :=
  match rootId a, rootId b with
  | some i, some j => i = j
  | _, _ => False

/-- One entry of the identity-aware cache model:
`{ data: structuredClone(data), expires: now + ttl }`. -/
structure RefEntry : Type where
  data : SVal
  expires : Nat

/-- The identity-aware `CacheManager` model: the same insertion-ordered map
as `CMState`, together with the heap allocation counter that
`structuredClone` draws fresh ids from. -/
structure RefCM : Type where
  entries : List (String × RefEntry)
  alloc : Nat

/-- `CacheManager.set` on the identity-aware model: the same eviction rule
as `cmSet`, and the stored data is a `structuredClone` of the argument. -/
def refSet (s : RefCM) (k : String) (d : SVal) (ttl now : Nat) : RefCM :=
  let ent := if s.entries.length ≥ 100 then evictOldest s.entries else s.entries
  let r := sclone s.alloc d
  { entries := mapSet ent k ⟨r.1, now + ttl⟩, alloc := r.2 }

/-- `CacheManager.get` on the identity-aware model: a present, unexpired
entry returns a fresh `structuredClone` of the stored data. -/
def refGet (s : RefCM) (k : String) (now : Nat) : Option SVal × RefCM :=
  match lookupA s.entries k with
  | none => (none, s)
  | some e =>
    if now > e.expires then (none, { s with entries := removeA s.entries k })
    else
      let r := sclone s.alloc e.data
      (some r.1, { s with alloc := r.2 })

/-! ## Helper lemmas -/

theorem lookupA_cons {α : Type} (p : String × α) (rest : List (String × α))
    (k : String) :
    lookupA (p :: rest) k = if p.1 = k then some p.2 else lookupA rest k := rfl

theorem lookupA_update_of_mem {α : Type} (s : List (String × α)) (k : String)
    (v : α) (h : s.any (fun kv => kv.1 == k) = true) :
    lookupA (s.map (fun kv => if kv.1 = k then (k, v) else kv)) k = some v := by
  induction s with
  | nil => simp at h
  | cons kv rest ih =>
    simp only [List.any_cons, Bool.or_eq_true] at h
    rw [List.map_cons]
    by_cases hk : kv.1 = k
    · rw [if_pos hk, lookupA_cons, if_pos rfl]
    · rw [if_neg hk, lookupA_cons, if_neg hk]
      exact ih (h.resolve_left (by simpa using hk))

theorem lookupA_append_self {α : Type} (s : List (String × α)) (k : String)
    (v : α) (h : s.any (fun kv => kv.1 == k) = false) :
    lookupA (s ++ [(k, v)]) k = some v := by
  induction s with
  | nil => rw [List.nil_append, lookupA_cons, if_pos rfl]
  | cons kv rest ih =>
    rw [List.any_cons] at h
    have h1 : (kv.1 == k) = false := by
      cases hb : (kv.1 == k) <;> simp [hb] at h ⊢
    rw [h1, Bool.false_or] at h
    have hk : kv.1 ≠ k := by simpa using h1
    rw [List.cons_append, lookupA_cons, if_neg hk]
    exact ih h

theorem lookupA_mapSet_self {α : Type} (s : List (String × α)) (k : String) (v : α) :
    lookupA (mapSet s k v) k = some v := by
  unfold mapSet
  by_cases h : s.any (fun kv => kv.1 == k)
  · rw [if_pos h]
    exact lookupA_update_of_mem s k v h
  · rw [if_neg h]
    have hf : s.any (fun kv => kv.1 == k) = false := by
      cases hb : s.any (fun kv => kv.1 == k)
      · rfl
      · exact absurd hb h
    exact lookupA_append_self s k v hf

theorem lookupA_cmSet_self (s : CMState) (k : String) (d : JVal) (ttl now : Nat) :
    lookupA (cmSet s k d ttl now) k = some ⟨d, now + ttl⟩ := by
  unfold cmSet
  exact lookupA_mapSet_self _ _ _

/-! ## C10: falsy timeout falls back to the 30000 ms default -/

/-- C10: for every non-upload HTTP call whose payload supplies `timeout`
equal to `0` (or omits it — both falsy), `makeRequest` silently falls back
to the client default of 30000 ms as the abort deadline, and an elapsed
deadline rejects with a message naming the default 30000 ms, not the
supplied 0. -/
theorem c10_falsy_timeout_default (origin : String) (routeDef : RouteDef)
    (payload : Payload) (u : String)
    (hfalsy : payload.timeout = some 0 ∨ payload.timeout = none)
    (hurl : buildUrl origin routeDef payload = .ok u)
    (hnoup : doesBodyHasFile payload.body = false) :
    effectiveTimeout payload.timeout 30000 = 30000 ∧
    makeRequest origin 30000 routeDef payload .timesOut =
      (.error (.err "Request timeout after 30000ms"), true) := by
  have ht : effectiveTimeout payload.timeout 30000 = 30000 := by
    rcases hfalsy with h | h <;> simp [effectiveTimeout, h]
  refine ⟨ht, ?_⟩
  unfold makeRequest
  rw [hurl]
  simp only [hnoup, Bool.false_eq_true, if_false, ht]
  rfl

/-- The route of the C10 witness call. -/
def c10route : RouteDef := ⟨"/users", "get", [], none⟩

/-- The payload of the C10 witness call: `timeout: 0` supplied. -/
def c10payload : Payload := { timeout := some 0 }

/-- C10 witness: the theorem at a concrete call with `timeout: 0`. -/
theorem c10_falsy_timeout_default_witness :
    effectiveTimeout c10payload.timeout 30000 = 30000 ∧
    makeRequest "http://a" 30000 c10route c10payload .timesOut =
      (.error (.err "Request timeout after 30000ms"), true) :=
  c10_falsy_timeout_default "http://a" c10route c10payload "http://a/users"
    (Or.inl rfl) rfl rfl

/-! ## C5: multipart detection misses files inside array fields -/

/-- C5 (code evaluation): a body whose only binary file sits inside an
array-valued field fails the multipart detection of `makeRequest` —
`Object.values(body).some(v => v instanceof File)` tests only direct field
values — while a direct `File` field passes it. The call with the
array-held file therefore takes the non-multipart branch. -/
theorem c5_array_file_not_detected :
    doesBodyHasFile (some [("files", .arr [.file "a.png"])]) = false ∧
    doesBodyHasFile (some [("avatar", .file "a.png")]) = true :=
  ⟨rfl, rfl⟩

/-! ## C6: connection close does not clear handler registrations -/

/-- C6 (code evaluation): after connecting to an address, registering a
handler for its `message` event, and the connection signalling closure, the
connection map is emptied but the handler map still holds the registration:
the close handler deletes the key `url`, while handlers are stored under
`url:event`. -/
theorem c6_close_keeps_handler_entries :
    (wsHandleClose (wsOn (wsConnect wsInit "ws://x/ws") "ws://x/ws" "message" 0)
        "ws://x/ws").connections = [] ∧
    lookupA (wsHandleClose (wsOn (wsConnect wsInit "ws://x/ws") "ws://x/ws" "message" 0)
        "ws://x/ws").eventHandlers "ws://x/ws:message" = some [0] :=
  ⟨rfl, rfl⟩

/-! ## Concrete inputs for the counterexamples -/

/-- A plain `GET /users` route. -/
def getUsersRoute : RouteDef := ⟨"/users", "get", [], none⟩

/-- A `GET /users/:id` route. -/
def getUserByIdRoute : RouteDef := ⟨"/users/:id", "get", [], none⟩

/-- A call payload with `cache: true` and nothing else. -/
def cachedCallPayload : Payload := { cache := .flag true }

/-- A cache holding an unexpired, truthy entry under the key `/users`. -/
def seededCache : CMState := [("/users", ⟨.jstr "x", 10⟩)]

/-- A response interceptor that clears the `cached` flag: applying it to any
payload is observable on that flag. -/
def clearCachedFlag : JetResp → JetResp := fun r => { r with cached := false }

/-- C1 counterexample: with `clearCachedFlag` the one registered
response-stage interceptor, a `GET` call served from an unexpired cache
entry returns the synthesized payload with `cached = true` — the claim that
every registered response-stage interceptor is still applied to the payload
fails, since applying the interceptor would have cleared that flag (third
conjunct), and the flag survives (first conjunct). -/
theorem c1_response_interceptor_skipped_on_hit :
    (dispatchHttp "http://a" 30000 [] [clearCachedFlag] [] getUsersRoute
        cachedCallPayload seededCache 0 (.netErr (.err "no network"))).result =
      .ok ⟨200, .jstr "x", true, true⟩ ∧
    (dispatchHttp "http://a" 30000 [] [clearCachedFlag] [] getUsersRoute
        cachedCallPayload seededCache 0 (.netErr (.err "no network"))).networkInvoked
      = false ∧
    (clearCachedFlag ⟨200, .jstr "x", true, true⟩).cached = false :=
  ⟨rfl, rfl, rfl⟩

/-- C2 counterexample: calling the `GET /users/:id` route with no `params`
at all is not rejected — `buildUrl` iterates only the supplied entries, so
the placeholder survives in the URL (first conjunct), the transport is
invoked (second conjunct) and the call resolves normally (third conjunct),
where the claim demands a `MissingParameterError` rejection and no network
call. -/
theorem c2_absent_params_not_rejected :
    buildUrl "http://a" getUserByIdRoute {} = .ok "http://a/users/:id" ∧
    (dispatchHttp "http://a" 30000 [] [] [] getUserByIdRoute {} [] 0
        (.ok ⟨200, .jnull⟩)).networkInvoked = true ∧
    (dispatchHttp "http://a" 30000 [] [] [] getUserByIdRoute {} [] 0
        (.ok ⟨200, .jnull⟩)).result = .ok ⟨200, .jnull, false, false⟩ :=
  ⟨rfl, rfl, rfl⟩

/-- A cache writer that throws, as `CacheManager.set` can (for instance out
of `structuredClone`); the dispatch flow has no inner catch around it. -/
def throwingSet (e : JsErr) : CMState → String → JVal → Nat → Nat →
    Except JsErr CMState :=
  fun _ _ _ _ _ => .error e

/-- C3 counterexample: the transport produced a 200 response, but a failure
raised by the post-transport cache write reaches the caller as the settled
outcome — the call rejects with the cache error and the transport's payload
does not resolve, where the claim demands the cache failure never be
surfaced. -/
theorem c3_cache_write_failure_surfaces_cex :
    (dispatch "http://a" 30000 [] [] [] cmGetE (throwingSet (.err "cache set failed"))
        getUsersRoute cachedCallPayload [] 0 (.ok ⟨200, .jstr "d"⟩)).result =
      .error (.err "cache set failed") ∧
    (dispatch "http://a" 30000 [] [] [] cmGetE (throwingSet (.err "cache set failed"))
        getUsersRoute cachedCallPayload [] 0 (.ok ⟨200, .jstr "d"⟩)).result.toOption
      = none ∧
    (dispatch "http://a" 30000 [] [] [] cmGetE (throwingSet (.err "cache set failed"))
        getUsersRoute cachedCallPayload [] 0 (.ok ⟨200, .jstr "d"⟩)).networkInvoked
      = true :=
  ⟨rfl, rfl, rfl⟩

/-- C4 counterexample: two query objects equal as key-value sets but
enumerated in different orders produce different cache keys — `flattenQuery`
and `URLSearchParams` keep enumeration order, nothing sorts — falsifying
"the same cache key in any enumeration order". -/
theorem c4_enumeration_order_changes_key :
    buildCacheKey getUsersRoute
        { query := some [("a", .prim "1"), ("b", .prim "2")], cache := .flag true }
        (.flag true) = "/users?a=1&b=2" ∧
    buildCacheKey getUsersRoute
        { query := some [("b", .prim "2"), ("a", .prim "1")], cache := .flag true }
        (.flag true) = "/users?b=2&a=1" ∧
    ("/users?a=1&b=2" : String) ≠ "/users?b=2&a=1" :=
  ⟨rfl, rfl, by decide⟩

/-- C7 counterexample: `invalidate("user-*")` deletes the stored key
`xuser-1` (first conjunct: the store empties), although that key neither
contains `user-*` literally nor matches the wildcard `user-*` as a whole
(second conjunct) — the regex search is unanchored, so the claim's "leaves
every non-matching key untouched" fails. -/
theorem c7_nonmatching_key_deleted :
    (cmInvalidate ["user-*"] [("xuser-1", ⟨.jnull, 10⟩)]).length = 0 ∧
    specInvalidateMatches "user-*" "xuser-1" = false :=
  ⟨rfl, rfl⟩

/-! ## C8: FIFO eviction -/

/-- A sequence of `CacheManager.set` calls on a fresh cache, one per key in
order (data and ttl fixed: the claim concerns only the retained keys). -/
def insKeys (ks : List String) : CMState :=
  ks.foldl (fun s k => cmSet s k .jnull 300000 0) []

/-- 101 distinct keys whose first is the empty string. -/
def c8emptyFirstKeys : List String :=
  "" :: (List.range 100).map (fun i => "k" ++ toString i)

set_option maxRecDepth 8000 in
/-- C8 counterexample: 101 `set` calls with distinct keys, the first of them
the empty string. `if (oldestKey)` is false for the empty string, so the
101st insertion evicts nothing: all 101 keys are retained, the very first
included — the claim's "retains only the 100 most-recently-inserted keys,
the first inserted evicted first" fails. -/
theorem c8_empty_first_key_overflows :
    c8emptyFirstKeys.Nodup ∧ c8emptyFirstKeys.length = 101 ∧
    (insKeys c8emptyFirstKeys).length = 101 ∧
    (insKeys c8emptyFirstKeys).map Prod.fst = c8emptyFirstKeys :=
  ⟨by decide, rfl, rfl, rfl⟩

/-- Key-level mirror of `evictOldest`. -/
def kEvict (ks : List String) : List String :=
  match ks with
  | [] => ks
  | k0 :: rest => if k0 = "" then ks else rest

/-- Key-level mirror of `cmSet`: how one `set` call transforms the cache's
ordered key list. -/
def kSet (ks : List String) (k : String) : List String :=
  let ks1 := if ks.length ≥ 100 then kEvict ks else ks
  if ks1.any (fun x => x == k) then ks1 else ks1 ++ [k]

theorem mapFst_evict {α : Type} (s : List (String × α)) :
    (evictOldest s).map Prod.fst = kEvict (s.map Prod.fst) := by
  cases s with
  | nil => rfl
  | cons kv rest =>
    cases kv with
    | mk k1 v1 =>
      unfold evictOldest kEvict
      by_cases h0 : k1 = ""
      · rw [List.map_cons]
        simp only [h0, if_pos rfl]
        rfl
      · rw [List.map_cons]
        simp only [if_neg h0]

theorem mapFst_update {α : Type} (s : List (String × α)) (k : String) (v : α) :
    (s.map (fun kv => if kv.1 = k then (k, v) else kv)).map Prod.fst =
      s.map Prod.fst := by
  induction s with
  | nil => rfl
  | cons kv rest ih =>
    simp only [List.map_cons, ih]
    by_cases hk : kv.1 = k
    · rw [if_pos hk, hk]
    · rw [if_neg hk]

theorem any_fst_eq {α : Type} (s : List (String × α)) (k : String) :
    (s.map Prod.fst).any (fun x => x == k) = s.any (fun kv => kv.1 == k) := by
  induction s with
  | nil => rfl
  | cons kv rest ih => simp [ih]

theorem mapFst_mapSet {α : Type} (s : List (String × α)) (k : String) (v : α) :
    (mapSet s k v).map Prod.fst =
      (if (s.map Prod.fst).any (fun x => x == k) then s.map Prod.fst
       else s.map Prod.fst ++ [k]) := by
  unfold mapSet
  rw [any_fst_eq]
  by_cases h : s.any (fun kv => kv.1 == k)
  · rw [if_pos h, if_pos h, mapFst_update]
  · rw [if_neg h, if_neg h, List.map_append]
    rfl

theorem cmSet_keys (s : CMState) (k : String) (d : JVal) (ttl now : Nat) :
    (cmSet s k d ttl now).map Prod.fst = kSet (s.map Prod.fst) k := by
  unfold cmSet kSet
  have hlen : (s.map Prod.fst).length = s.length := List.length_map s Prod.fst
  by_cases hge : s.length ≥ 100
  · have hge2 : (List.map Prod.fst s).length ≥ 100 := by rw [hlen]; exact hge
    rw [if_pos hge, if_pos hge2, mapFst_mapSet, mapFst_evict]
  · have hge2 : ¬ (List.map Prod.fst s).length ≥ 100 := by rw [hlen]; exact hge
    rw [if_neg hge, if_neg hge2, mapFst_mapSet]

theorem insKeys_from (ks : List String) (s : CMState) :
    (ks.foldl (fun s k => cmSet s k .jnull 300000 0) s).map Prod.fst =
      ks.foldl kSet (s.map Prod.fst) := by
  induction ks generalizing s with
  | nil => rfl
  | cons k rest ih =>
    simp only [List.foldl_cons]
    rw [ih, cmSet_keys]

theorem kFold_drop (ks : List String) (h1 : ks.Nodup) (h2 : ∀ k ∈ ks, k ≠ "") :
    ks.foldl kSet [] = ks.drop (ks.length - 100) := by
  induction ks using List.reverseRecOn with
  | nil => rfl
  | append_singleton ks k ih =>
    have hnd : ks.Nodup ∧ k ∉ ks := by
      rw [List.nodup_append] at h1
      refine ⟨h1.1, fun hk => h1.2.2 hk (by simp)⟩
    have hne : ∀ x ∈ ks, x ≠ "" := fun x hx => h2 x (by simp [hx])
    have ihe := ih hnd.1 hne
    rw [List.foldl_append, List.foldl_cons, List.foldl_nil, ihe]
    by_cases hlt : ks.length < 100
    · have hz : ks.length - 100 = 0 := by omega
      have hz' : (ks ++ [k]).length - 100 = 0 := by
        simp only [List.length_append, List.length_cons, List.length_nil]
        omega
      rw [hz, List.drop_zero, hz', List.drop_zero]
      simp only [kSet]
      rw [if_neg (show ¬ ks.length ≥ 100 by omega)]
      have hnk : ks.any (fun x => x == k) = false := by
        cases hb : ks.any (fun x => x == k)
        · rfl
        · exfalso
          rcases List.any_eq_true.mp hb with ⟨x, hx, hxk⟩
          exact hnd.2 (beq_iff_eq.mp hxk ▸ hx)
      rw [hnk]
      simp
    · have hge : 100 ≤ ks.length := by omega
      have hDlen : (ks.drop (ks.length - 100)).length = 100 := by
        rw [List.length_drop]
        omega
      obtain ⟨d0, dtl, hDc⟩ : ∃ d0 dtl, ks.drop (ks.length - 100) = d0 :: dtl := by
        cases hDc : ks.drop (ks.length - 100) with
        | nil => rw [hDc] at hDlen; simp at hDlen
        | cons a b => exact ⟨a, b, rfl⟩
      have hDsub : ks.drop (ks.length - 100) ⊆ ks := List.drop_subset _ _
      have hd0 : d0 ≠ "" := hne d0 (hDsub (by rw [hDc]; simp))
      have hdtl : (ks ++ [k]).drop ((ks ++ [k]).length - 100) = dtl ++ [k] := by
        have harith : (ks ++ [k]).length - 100 = (ks.length - 100) + 1 := by
          simp only [List.length_append, List.length_cons, List.length_nil]
          omega
        rw [harith, List.drop_append_of_le_length (by omega)]
        have htl : ks.drop (ks.length - 100 + 1) = dtl := by
          rw [← List.tail_drop, hDc]
          rfl
        rw [htl]
      rw [hdtl, hDc]
      simp only [kSet]
      have hlge : (d0 :: dtl).length ≥ 100 := by rw [← hDc]; omega
      rw [if_pos hlge]
      simp only [kEvict]
      rw [if_neg hd0]
      have hnk : dtl.any (fun x => x == k) = false := by
        cases hb : dtl.any (fun x => x == k)
        · rfl
        · exfalso
          rcases List.any_eq_true.mp hb with ⟨x, hx, hxk⟩
          have hxks : x ∈ ks := hDsub (by rw [hDc]; exact List.mem_cons_of_mem _ hx)
          exact hnd.2 (beq_iff_eq.mp hxk ▸ hxks)
      rw [hnk]
      simp

/-- C8 amended: a sequence of more than 100 `set` calls with distinct,
nonempty keys on a fresh `CacheManager` retains exactly the 100
most-recently-inserted keys, in insertion order — at capacity each `set`
evicts the single oldest-inserted entry (FIFO), so the first inserted key
is evicted first. (The nonemptiness proviso is what the counterexample
forces: the `if (oldestKey)` guard skips eviction when the oldest key is
the empty string.) -/
theorem c8_fifo_eviction_nonempty_keys (ks : List String) (h1 : ks.Nodup)
    (h2 : ∀ k ∈ ks, k ≠ "") (h3 : 100 < ks.length) :
    (insKeys ks).map Prod.fst = ks.drop (ks.length - 100) := by
  unfold insKeys
  rw [insKeys_from ks []]
  exact kFold_drop ks h1 h2

/-- 101 distinct nonempty keys `k0`..`k100`. -/
def c8goodKeys : List String := (List.range 101).map (fun i => "k" ++ toString i)

set_option maxRecDepth 8000 in
/-- C8 witness: the amended theorem at 101 concrete nonempty keys — the
retained keys are exactly the 100 most recently inserted. -/
theorem c8_fifo_eviction_nonempty_keys_witness :
    c8goodKeys.Nodup ∧ (∀ k ∈ c8goodKeys, k ≠ "") ∧ 100 < c8goodKeys.length ∧
    (insKeys c8goodKeys).map Prod.fst = c8goodKeys.drop (c8goodKeys.length - 100) :=
  ⟨by decide, by decide, by decide,
    c8_fifo_eviction_nonempty_keys c8goodKeys (by decide) (by decide) (by decide)⟩

/-! ## C1: cache hits -/

/-- The cache-hit path of `createHttpFunction`: shared worker for the
cache-related properties. -/
theorem dispatchHttp_hit (origin : String) (dT : Nat)
    (reqI : List (Payload → Payload)) (respI : List (JetResp → JetResp))
    (errI : List (JsErr → JsErr)) (routeDef : RouteDef) (payload : Payload)
    (st : CMState) (now : Nat) (outcome : TransportResult) (e : CEntry)
    (hm : strToLower routeDef.method = "get")
    (hc : cacheTruthy payload.cache = true)
    (hl : lookupA st (buildCacheKey routeDef payload payload.cache) = some e)
    (hexp : ¬ now > e.expires)
    (ht : jvTruthy e.data = true) :
    dispatchHttp origin dT reqI respI errI routeDef payload st now outcome =
      ⟨.ok ⟨200, e.data, true, true⟩, st, false⟩ := by
  unfold dispatchHttp dispatch cmGetE cmGet
  rw [hm, hc, hl]
  simp [ht, hexp]

/-- C1 amended: a `GET` call whose truthy cache directive finds an
unexpired entry with truthy stored data returns a synthesized payload with
status 200, `cached = true` and `fromCache = true`, invokes no network
transport, and leaves the cache untouched — but the payload is returned
as-is: the registered response-stage interceptors are NOT applied on the
cache-hit path (the flow returns before the interceptor fold). -/
theorem c1_cache_hit_synthesized (origin : String) (dT : Nat)
    (reqI : List (Payload → Payload)) (respI : List (JetResp → JetResp))
    (errI : List (JsErr → JsErr)) (routeDef : RouteDef) (payload : Payload)
    (st : CMState) (now : Nat) (outcome : TransportResult) (e : CEntry)
    (hm : strToLower routeDef.method = "get")
    (hc : cacheTruthy payload.cache = true)
    (hl : lookupA st (buildCacheKey routeDef payload payload.cache) = some e)
    (hexp : ¬ now > e.expires)
    (ht : jvTruthy e.data = true) :
    dispatchHttp origin dT reqI respI errI routeDef payload st now outcome =
      ⟨.ok ⟨200, e.data, true, true⟩, st, false⟩ :=
  dispatchHttp_hit origin dT reqI respI errI routeDef payload st now outcome e
    hm hc hl hexp ht

/-- C1 witness: the amended theorem at a concrete hit — one response
interceptor is registered, and the result is still the raw synthesized
payload. -/
theorem c1_cache_hit_synthesized_witness :
    strToLower getUsersRoute.method = "get" ∧
    cacheTruthy cachedCallPayload.cache = true ∧
    lookupA seededCache
      (buildCacheKey getUsersRoute cachedCallPayload cachedCallPayload.cache) =
      some ⟨.jstr "x", 10⟩ ∧
    ¬ (0 : Nat) > (10 : Nat) ∧
    jvTruthy (JVal.jstr "x") = true ∧
    dispatchHttp "http://a" 30000 [] [clearCachedFlag] [] getUsersRoute
      cachedCallPayload seededCache 0 (.netErr (.err "no network")) =
      ⟨.ok ⟨200, .jstr "x", true, true⟩, seededCache, false⟩ :=
  ⟨rfl, rfl, rfl, by decide, rfl,
    c1_cache_hit_synthesized "http://a" 30000 [] [clearCachedFlag] []
      getUsersRoute cachedCallPayload seededCache 0 (.netErr (.err "no network"))
      ⟨.jstr "x", 10⟩ rfl rfl rfl (by decide) rfl⟩

/-! ## C2: missing path parameters -/

/-- The key of the first supplied parameter entry whose value is
`null`/`undefined`. -/
def firstNullish : List (String × Option String) → Option String
  | [] => none
  | (k, none) :: _ => some k
  | (_, some _) :: rest => firstNullish rest

theorem substParams_error (ps : List (String × Option String)) (e : JsErr) :
    ps.foldl (fun (acc : Except JsErr String) pv =>
      match acc with
      | .error e => .error e
      | .ok p =>
        match pv.2 with
        | none => .error (.err ("Missing required parameter: " ++ pv.1))
        | some v => .ok (replaceFirst p (":" ++ pv.1) (encodeURIComponent v)))
      (.error e) = .error e := by
  induction ps with
  | nil => rfl
  | cons pv rest ih =>
    rw [List.foldl_cons]
    exact ih

theorem substParams_firstNullish (ps : List (String × Option String)) (k : String)
    (path : String) (h : firstNullish ps = some k) :
    substParams ps path = .error (.err ("Missing required parameter: " ++ k)) := by
  induction ps generalizing path with
  | nil => simp [firstNullish] at h
  | cons pv rest ih =>
    cases pv with
    | mk pk pval =>
      cases pval with
      | none =>
        simp only [firstNullish, Option.some_inj] at h
        subst h
        unfold substParams
        rw [List.foldl_cons]
        exact substParams_error rest _
      | some v =>
        simp only [firstNullish] at h
        unfold substParams at ih ⊢
        rw [List.foldl_cons]
        exact ih _ h

/-- C2 amended: a rejection with `Missing required parameter` happens
exactly when a params object is supplied and one of its entries carries a
`null`/`undefined` value — the first such entry's key is named, the error
is folded through the error interceptors, and no network transport runs.
(A route placeholder with no corresponding entry — params absent entirely,
or present without the key — raises nothing; see the counterexample.) -/
theorem c2_nullish_param_rejects (origin : String) (dT : Nat)
    (respI : List (JetResp → JetResp)) (errI : List (JsErr → JsErr))
    (routeDef : RouteDef) (payload : Payload) (st : CMState) (now : Nat)
    (outcome : TransportResult) (ps : List (String × Option String)) (k : String)
    (hp : payload.params = some ps)
    (hk : firstNullish ps = some k)
    (hc : cacheTruthy payload.cache = false) :
    dispatchHttp origin dT [] respI errI routeDef payload st now outcome =
      ⟨.error (applyErrI errI (.err ("Missing required parameter: " ++ k))),
        st, false⟩ := by
  simp [dispatchHttp, dispatch, makeRequest, buildUrl, hc, hp,
    substParams_firstNullish ps k routeDef.path hk]

/-- The payload of the C2 witness: `params` supplied with a null `id`. -/
def c2nullIdPayload : Payload := { params := some [("id", none)] }

/-- C2 witness: the amended theorem at a concrete call — `params: { id:
null }` on `GET /users/:id` rejects with the named error before any
network activity. -/
theorem c2_nullish_param_rejects_witness :
    c2nullIdPayload.params = some [("id", none)] ∧
    firstNullish [("id", none)] = some "id" ∧
    cacheTruthy c2nullIdPayload.cache = false ∧
    dispatchHttp "http://a" 30000 [] [] [] getUserByIdRoute c2nullIdPayload [] 0
      (.ok ⟨200, .jnull⟩) =
      ⟨.error (applyErrI [] (.err "Missing required parameter: id")), [], false⟩ :=
  ⟨rfl, rfl, rfl,
    c2_nullish_param_rejects "http://a" 30000 [] [] getUserByIdRoute
      c2nullIdPayload [] 0 (.ok ⟨200, .jnull⟩) [("id", none)] "id" rfl rfl rfl⟩

/-! ## C3: cache failures surface -/

/-- C3 amended: when the transport produced a successful response on a
cacheable `GET` call and the post-transport cache write throws, the failure
is NOT swallowed: it is folded through the error-interceptor chain and the
call rejects with it, so the transport's payload does not reach the caller
(the pre-transport cache read behaves alike, through the same single
`catch`). -/
theorem c3_cache_write_failure_rethrown (origin : String) (dT : Nat)
    (respI : List (JetResp → JetResp)) (errI : List (JsErr → JsErr))
    (routeDef : RouteDef) (payload : Payload) (st : CMState) (now : Nat)
    (resp : Resp) (e : JsErr)
    (hm : strToLower routeDef.method = "get")
    (hc : cacheTruthy payload.cache = true)
    (hl : lookupA st (buildCacheKey routeDef payload payload.cache) = none)
    (hreq : makeRequest origin dT routeDef payload (.ok resp) = (.ok resp, true))
    (hok : respOk resp = true) :
    dispatch origin dT [] respI errI cmGetE (throwingSet e) routeDef payload st
      now (.ok resp) =
      ⟨.error (applyErrI errI e), st, true⟩ := by
  simp [dispatch, cmGetE, cmGet, throwingSet, hm, hc, hl, hreq, hok]

/-- C3 witness: the amended theorem at a concrete call — the 200 response
is produced, the cache write throws, and the caller sees the cache error. -/
theorem c3_cache_write_failure_rethrown_witness :
    strToLower getUsersRoute.method = "get" ∧
    cacheTruthy cachedCallPayload.cache = true ∧
    lookupA ([] : CMState)
      (buildCacheKey getUsersRoute cachedCallPayload cachedCallPayload.cache)
      = none ∧
    makeRequest "http://a" 30000 getUsersRoute cachedCallPayload
      (.ok ⟨200, .jstr "d"⟩) = (.ok ⟨200, .jstr "d"⟩, true) ∧
    respOk ⟨200, .jstr "d"⟩ = true ∧
    dispatch "http://a" 30000 [] [] [] cmGetE (throwingSet (.err "cache set failed"))
      getUsersRoute cachedCallPayload [] 0 (.ok ⟨200, .jstr "d"⟩) =
      ⟨.error (applyErrI [] (.err "cache set failed")), [], true⟩ :=
  ⟨rfl, rfl, rfl, rfl, rfl,
    c3_cache_write_failure_rethrown "http://a" 30000 [] [] getUsersRoute
      cachedCallPayload [] 0 ⟨200, .jstr "d"⟩ (.err "cache set failed")
      rfl rfl rfl rfl rfl⟩

/-! ## C4: cache key determinism and the second call -/

/-- C4 amended: two calls to the same `GET` route whose params and query are
equal as ordered association lists (the same enumeration order — as the
counterexample shows, a different order can change the key) compute the same
cache key, nested query keys rendered `outer[inner]`; after a first call
that misses, succeeds and caches, the second call within the TTL is served
with `fromCache = true` and no network transport. -/
theorem c4_same_order_second_call_cached (origin : String) (dT : Nat)
    (respI : List (JetResp → JetResp)) (errI : List (JsErr → JsErr))
    (routeDef : RouteDef) (payload : Payload) (st : CMState) (now1 now2 : Nat)
    (resp : Resp) (outcome2 : TransportResult)
    (hm : strToLower routeDef.method = "get")
    (hc : cacheTruthy payload.cache = true)
    (hl : lookupA st (buildCacheKey routeDef payload payload.cache) = none)
    (hreq : makeRequest origin dT routeDef payload (.ok resp) = (.ok resp, true))
    (hok : respOk resp = true)
    (htr : jvTruthy resp.body = true)
    (hinv : routeDef.invalidates = none)
    (hexp : ¬ now2 > now1 + ttlOf payload.cache) :
    dispatchHttp origin dT [] respI errI routeDef payload
      (dispatchHttp origin dT [] respI errI routeDef payload st now1
        (.ok resp)).cacheAfter now2 outcome2 =
      ⟨.ok ⟨200, resp.body, true, true⟩,
       (dispatchHttp origin dT [] respI errI routeDef payload st now1
         (.ok resp)).cacheAfter, false⟩ := by
  have h1 : (dispatchHttp origin dT [] respI errI routeDef payload st now1
      (.ok resp)).cacheAfter =
      cmSet st (buildCacheKey routeDef payload payload.cache) resp.body
        (ttlOf payload.cache) now1 := by
    simp [dispatchHttp, dispatch, cmGetE, cmGet, cmSetE, hm, hc, hl, hreq, hok, hinv]
  rw [h1]
  exact dispatchHttp_hit origin dT [] respI errI routeDef payload _ now2 outcome2
    ⟨resp.body, now1 + ttlOf payload.cache⟩ hm hc
    (lookupA_cmSet_self st _ resp.body (ttlOf payload.cache) now1) hexp htr

/-- The payload of the C4 witness: a nested query object and a cache
directive with a 5000 ms TTL. -/
def c4nestedPayload : Payload :=
  { query := some [("o", .obj [("i", .prim "3")])],
    cache := .config (some 5000) none }

/-- C4 witness: the amended theorem at a concrete call with a nested query —
the cache key renders the nested key as `o[i]` (form-encoded), and the
second call is served from cache with no transport. -/
theorem c4_same_order_second_call_cached_witness :
    buildCacheKey getUsersRoute c4nestedPayload c4nestedPayload.cache =
      "/users?o%5Bi%5D=3" ∧
    lookupA ([] : CMState)
      (buildCacheKey getUsersRoute c4nestedPayload c4nestedPayload.cache) = none ∧
    makeRequest "http://a" 30000 getUsersRoute c4nestedPayload
      (.ok ⟨200, .jstr "x"⟩) = (.ok ⟨200, .jstr "x"⟩, true) ∧
    ¬ (100 : Nat) > 0 + ttlOf c4nestedPayload.cache ∧
    dispatchHttp "http://a" 30000 [] [] [] getUsersRoute c4nestedPayload
      (dispatchHttp "http://a" 30000 [] [] [] getUsersRoute c4nestedPayload []
        0 (.ok ⟨200, .jstr "x"⟩)).cacheAfter 100 (.netErr (.err "no")) =
      ⟨.ok ⟨200, .jstr "x", true, true⟩,
       (dispatchHttp "http://a" 30000 [] [] [] getUsersRoute c4nestedPayload []
         0 (.ok ⟨200, .jstr "x"⟩)).cacheAfter, false⟩ :=
  ⟨rfl, rfl, rfl, by decide,
    c4_same_order_second_call_cached "http://a" 30000 [] [] getUsersRoute
      c4nestedPayload [] 0 100 ⟨200, .jstr "x"⟩ (.netErr (.err "no"))
      rfl rfl rfl rfl rfl rfl rfl (by decide)⟩

/-! ## C7: invalidation matching -/

theorem bool_eq_of_iff {a b : Bool} (h : a = true ↔ b = true) : a = b := by
  cases a <;> cases b <;> simp_all

theorem leadMatch_iff (p : List Char) : ∀ k, leadMatch p k = true ↔ p <+: k := by
  induction p with
  | nil => intro k; simp [leadMatch]
  | cons c ps ih =>
    intro k
    cases k with
    | nil => simp [leadMatch]
    | cons d ks =>
      simp [leadMatch, ih, List.cons_prefix_cons, Bool.and_eq_true, beq_iff_eq]

theorem glob_lits_star (lits : List Char) (hs : '*' ∉ lits) :
    ∀ m, globMatch (lits ++ ['*']) m = leadMatch lits m := by
  induction lits with
  | nil =>
    intro m
    show globMatch ['*'] m = true
    unfold globMatch
    rw [if_pos rfl]
    refine List.any_eq_true.mpr ⟨[], (List.mem_tails _ _).mpr ⟨m, by simp⟩, rfl⟩
  | cons c rest ih =>
    intro m
    have hc : c ≠ '*' := fun h => hs (h ▸ List.mem_cons_self c rest)
    have hrest : '*' ∉ rest := fun h => hs (List.mem_cons_of_mem c h)
    rw [List.cons_append]
    cases m with
    | nil =>
      unfold globMatch leadMatch
      rw [if_neg hc]
    | cons d ks =>
      unfold globMatch leadMatch
      rw [if_neg hc]
      show (c == d && globMatch (rest ++ ['*']) ks) = (c == d && leadMatch rest ks)
      rw [ih hrest ks]

theorem leadMatch_refl (p : List Char) : leadMatch p p = true :=
  (leadMatch_iff p p).mpr ⟨[], by simp⟩

theorem inits_any_leadMatch (L t : List Char) :
    t.inits.any (fun m => leadMatch L m) = leadMatch L t := by
  apply bool_eq_of_iff
  constructor
  · intro h
    rcases List.any_eq_true.mp h with ⟨m, hm, hLm⟩
    have h1 : m <+: t := List.mem_inits m t |>.mp hm
    have h2 : L <+: m := (leadMatch_iff L m).mp hLm
    exact (leadMatch_iff L t).mpr (h2.trans h1)
  · intro h
    refine List.any_eq_true.mpr ⟨L, ?_, leadMatch_refl L⟩
    exact (List.mem_inits L t).mpr ((leadMatch_iff L t).mp h)

theorem rxSearch_lits_star (L k : List Char) (hs : '*' ∉ L) :
    rxSearch (L ++ ['*']) k = containsSub k L := by
  unfold rxSearch containsSub
  apply congrArg
  funext t
  have h1 : (fun m => globMatch (L ++ ['*']) m) = (fun m => leadMatch L m) := by
    funext m
    exact glob_lits_star L hs m
  rw [h1, inits_any_leadMatch]

theorem leadMatch_append_left (a b : List Char) :
    ∀ t, leadMatch (a ++ b) t = true → leadMatch a t = true := by
  induction a with
  | nil => intro t _; rfl
  | cons c a' ih =>
    intro t h
    cases t with
    | nil => exact absurd h (by simp [leadMatch])
    | cons d ts =>
      rw [List.cons_append] at h
      unfold leadMatch at h ⊢
      simp only [Bool.and_eq_true] at h
      rw [h.1, ih ts h.2]
      rfl

theorem containsSub_append_left (k a b : List Char)
    (h : containsSub k (a ++ b) = true) : containsSub k a = true := by
  unfold containsSub at h ⊢
  rcases List.any_eq_true.mp h with ⟨t, ht, hm⟩
  exact List.any_eq_true.mpr ⟨t, ht, leadMatch_append_left a b t hm⟩

theorem matchesPattern_user_star (k : String) :
    matchesPattern "user-*" k = containsSub k.toList ("user-".toList) := by
  unfold matchesPattern
  have hsplit : ("user-*".toList) = ("user-".toList) ++ ['*'] := rfl
  rw [hsplit, rxSearch_lits_star _ _ (by decide)]
  apply bool_eq_of_iff
  simp only [Bool.or_eq_true]
  constructor
  · intro h
    rcases h with h | h
    · exact containsSub_append_left k.toList _ _ h
    · exact h
  · intro h
    exact Or.inr h

/-- C7 amended: the invalidation test is unanchored — a key is deleted when
it contains a pattern as a literal substring OR some contiguous piece of it
matches the pattern as a wildcard expression. For `invalidate("user-*")`
this deletes exactly the keys containing `user-` as a substring (and keeps
every other key, in order): the wildcard does not have to cover the whole
key. -/
theorem c7_invalidate_unanchored (st : CMState) :
    cmInvalidate ["user-*"] st =
      st.filter (fun kv => !(containsSub kv.1.toList ("user-".toList))) := by
  unfold cmInvalidate
  apply List.filter_congr
  intro kv _
  simp [matchesPattern_user_star kv.1]

/-! ## C9: deep copies on set and get -/

mutual
theorem erase_sclone (c : Nat) (v : SVal) :
    eraseIds (sclone c v).1 = eraseIds v := by
  match v with
  | .prim s => rfl
  | .obj i fs =>
    show PVal.obj (eraseFields (scloneFields (c + 1) fs).1) =
      PVal.obj (eraseFields fs)
    rw [erase_scloneFields (c + 1) fs]

theorem erase_scloneFields (c : Nat) (fs : List (String × SVal)) :
    eraseFields (scloneFields c fs).1 = eraseFields fs := by
  match fs with
  | [] => rfl
  | (k, v) :: rest =>
    show (k, eraseIds (sclone c v).1) ::
        eraseFields (scloneFields (sclone c v).2 rest).1 =
      (k, eraseIds v) :: eraseFields rest
    rw [erase_sclone c v, erase_scloneFields (sclone c v).2 rest]
end

mutual
theorem sclone_counter_ge (c : Nat) (v : SVal) : c ≤ (sclone c v).2 := by
  match v with
  | .prim s => exact le_refl c
  | .obj i fs =>
    show c ≤ (scloneFields (c + 1) fs).2
    exact le_trans (Nat.le_succ c) (scloneFields_counter_ge (c + 1) fs)

theorem scloneFields_counter_ge (c : Nat) (fs : List (String × SVal)) :
    c ≤ (scloneFields c fs).2 := by
  match fs with
  | [] => exact le_refl c
  | (k, v) :: rest =>
    show c ≤ (scloneFields (sclone c v).2 rest).2
    exact le_trans (sclone_counter_ge c v)
      (scloneFields_counter_ge (sclone c v).2 rest)
end

theorem rootId_le_maxId (v : SVal) (i : Nat) (h : rootId v = some i) :
    i ≤ maxId v := by
  cases v with
  | prim s => simp [rootId] at h
  | obj j fs =>
    simp only [rootId, Option.some_inj] at h
    have hm : maxId (.obj j fs) = max j (maxIdFields fs) := rfl
    rw [hm, ← h]
    exact le_max_left _ _

theorem rootId_sclone_obj (c : Nat) (j : Nat) (fs : List (String × SVal)) :
    rootId (sclone c (.obj j fs)).1 = some c := rfl

/-- C9: `set(k, v, ttl)` immediately followed by `get(k)` (same instant,
positive ttl) returns a value deep-equal to `v` (identities erased, the
shapes agree) but not reference-identical to it: both the stored copy and
the returned copy are fresh allocations, so cached state and caller-held
objects never alias. The freshness hypothesis `maxId v < s.alloc` says the
allocator's next free id exceeds every id live in `v`, as on a real heap. -/
theorem c9_set_get_deep_copy (s : RefCM) (k : String) (v : SVal)
    (ttl now : Nat) (httl : 0 < ttl) (hal : maxId v < s.alloc) :
    ∃ w s2, refGet (refSet s k v ttl now) k now = (some w, s2) ∧
      eraseIds w = eraseIds v ∧ ¬ refIdentical w v := by
  have hlook : lookupA (refSet s k v ttl now).entries k =
      some ⟨(sclone s.alloc v).1, now + ttl⟩ := by
    unfold refSet
    exact lookupA_mapSet_self _ _ _
  have hnoexp : ¬ now > now + ttl := by omega
  have hget : refGet (refSet s k v ttl now) k now =
      (some (sclone (refSet s k v ttl now).alloc (sclone s.alloc v).1).1,
       { refSet s k v ttl now with
         alloc := (sclone (refSet s k v ttl now).alloc (sclone s.alloc v).1).2 }) := by
    unfold refGet
    rw [hlook]
    simp [hnoexp]
  refine ⟨(sclone (refSet s k v ttl now).alloc (sclone s.alloc v).1).1, _, hget, ?_, ?_⟩
  · rw [erase_sclone, erase_sclone]
  · have halloc : (refSet s k v ttl now).alloc = (sclone s.alloc v).2 := rfl
    cases v with
    | prim sv =>
      intro hid
      simp [refIdentical, sclone, rootId] at hid
    | obj j fs =>
      intro hid
      have h1 : rootId (sclone s.alloc (.obj j fs)).1 = some s.alloc := rfl
      have h2 : rootId (sclone (refSet s k (.obj j fs) ttl now).alloc
          (sclone s.alloc (.obj j fs)).1).1 =
          some (refSet s k (.obj j fs) ttl now).alloc := by
        rw [show (sclone s.alloc (.obj j fs)).1 =
          .obj s.alloc (scloneFields (s.alloc + 1) fs).1 from rfl]
        rfl
      have h3 : j ≤ maxId (.obj j fs) := rootId_le_maxId _ j rfl
      have h4 : s.alloc ≤ (refSet s k (.obj j fs) ttl now).alloc := by
        rw [halloc]
        exact sclone_counter_ge s.alloc _
      unfold refIdentical at hid
      rw [h2] at hid
      simp only [rootId] at hid
      omega

/-- The value stored by the C9 witness: an object with one field. -/
def c9value : SVal := .obj 0 [("a", .prim "1")]

/-- C9 witness: the theorem at a concrete store — a fresh cache whose
allocator is past every id of the stored object, ttl 5 ms, read at the same
instant. -/
theorem c9_set_get_deep_copy_witness :
    (0 : Nat) < 5 ∧ maxId c9value < 1 ∧
    (∃ w s2, refGet (refSet ⟨[], 1⟩ "k" c9value 5 0) "k" 0 = (some w, s2) ∧
      eraseIds w = eraseIds c9value ∧ ¬ refIdentical w c9value) :=
  ⟨by decide, by decide,
    c9_set_get_deep_copy ⟨[], 1⟩ "k" c9value 5 0 (by decide) (by decide)⟩
